import Mathlib

/-!
Verification of the Emirates ID extraction pipeline
(`emirates_id_extractor.py`): a shallow embedding of the core text
processing functions, with theorems settling the specification's claims.

Records are modelled as association lists `List (String × String)`,
mirroring Python dictionaries (insertion order preserved, in-place value
update for existing keys).  The regular expressions of
`extract_using_regex` are embedded as direct character-list matchers with
Python `re` semantics (leftmost match, greedy quantifiers, `findall`
non-overlapping scan).  External collaborators (the JSON decoder, the
Textract OCR call, the language-model invocation, the S3 object store)
are passed in as explicit parameters or explicit state.
-/

namespace EmiratesID

/-! ## Python dictionary model -/

/-- Python dict read `d[k]` / membership `k in d`: first binding of `k`. -/
def dictGet (d : List (String × String)) (k : String) : Option String :=
  match d with
  | [] => none
  | p :: t => if p.1 == k then some p.2 else dictGet t k

/-- Python dict assignment `d[k] = v`: replace the value in place when the
key exists, append otherwise. -/
def dictSet (d : List (String × String)) (k : String) (v : String) :
    List (String × String) :=
  if d.any (fun p => p.1 == k) then
    d.map (fun p => if p.1 == k then (p.1, v) else p)
  else d ++ [(k, v)]

/-- Keys of a record, in order. -/
def keysOf (d : List (String × String)) : List String := d.map Prod.fst

/-- The eight schema keys, in the order the source constructs them. -/
def schemaKeys : List String :=
  ["name", "uid_no", "passport_no", "profession", "sponsor",
   "place_of_issue", "issue_date", "expiry_date"]

/-- A record binds every schema key. -/
def allKeysPresent (d : List (String × String)) : Bool :=
  schemaKeys.all (fun k => (dictGet d k).isSome)

/-! ## Character classes and substring containment -/

/-- ASCII uppercase letter, the character class `[A-Z]`. -/
def isUpperAZ (c : Char) : Bool := 'A' ≤ c && c ≤ 'Z'

/-- Whitespace, the character class `\s` (ASCII range). -/
def isWsChar (c : Char) : Bool :=
  c == ' ' || c == '\t' || c == '\n' || c == '\x0d' || c == '\x0b' || c == '\x0c'

/-- Word character, the class `\w` (ASCII range), used for `\b`. -/
def isWordChar (c : Char) : Bool := c.isAlphanum || c == '_'

/-- Python substring containment `pat in s` on character lists. -/
def listContainsSub (cs ps : List Char) : Bool :=
  (List.range (cs.length + 1)).any (fun i => ps.isPrefixOf (cs.drop i))

/-- Python substring containment `pat in s`. -/
def strContains (s pat : String) : Bool := listContainsSub s.data pat.data

/-- Python `str.upper()` (ASCII folding), character by character. -/
def strUpper (s : String) : String := String.mk (s.data.map Char.toUpper)

/-- Python `str.strip()`: remove leading and trailing whitespace. -/
def pyStrip (s : String) : String :=
  String.mk (((s.data.dropWhile isWsChar).reverse.dropWhile isWsChar).reverse)

/-- Longest prefix of characters satisfying `p`, and the remainder. -/
def spanP (p : Char → Bool) : List Char → List Char × List Char
  | [] => ([], [])
  | c :: cs =>
    if p c then (c :: (spanP p cs).1, (spanP p cs).2)
    else ([], c :: cs)

/-! ## The regular expressions of `extract_using_regex` -/

/-- The seven city alternatives of the place-of-issue pattern, in the order
they appear in the alternation. -/
def cityNames : List String :=
  ["Dubai", "Abu Dhabi", "Sharjah", "Ajman", "Umm Al Quwain",
   "Ras Al Khaimah", "Fujairah"]

/-- Case-insensitive literal prefix test (ASCII folding), for
`re.IGNORECASE`. -/
def ciPrefix : List Char → List Char → Bool
  | [], _ => true
  | _ :: _, [] => false
  | p :: ps, c :: cs => (p.toLower == c.toLower) && ciPrefix ps cs

/-- Match of the alternation `(Dubai|Abu Dhabi|...)` at the current
position; alternatives are tried in order and the match keeps the casing
found in the text (`group(1)`). -/
def matchPlaceAt (cs : List Char) : Option (List Char) :=
  cityNames.findSome? (fun city =>
    if ciPrefix city.data cs then some (cs.take city.data.length) else none)

/-- Leftmost match of the place-of-issue pattern. -/
def searchPlace : List Char → Option (List Char)
  | [] => none
  | c :: rest =>
    match matchPlaceAt (c :: rest) with
    | some m => some m
    | none => searchPlace rest

/-- The `\b` after the digits: end of text or a non-word character. -/
def boundaryAfter : List Char → Bool
  | [] => true
  | c :: _ => !isWordChar c

/-- Match of `\d{8,9}\b` at the current position (greedy: 9 digits first). -/
def matchUidAt (cs : List Char) : Option (List Char) :=
  if 9 ≤ cs.length && (cs.take 9).all Char.isDigit
      && boundaryAfter (cs.drop 9) then
    some (cs.take 9)
  else if 8 ≤ cs.length && (cs.take 8).all Char.isDigit
      && boundaryAfter (cs.drop 8) then
    some (cs.take 8)
  else none

/-- The `\b` before the digits: start of text or a non-word character. -/
def boundaryBefore : Option Char → Bool
  | none => true
  | some c => !isWordChar c

def searchUidAux (prev : Option Char) : List Char → Option (List Char)
  | [] => none
  | c :: rest =>
    match (if boundaryBefore prev then matchUidAt (c :: rest) else none) with
    | some m => some m
    | none => searchUidAux (some c) rest

/-- Leftmost match of `\b\d{8,9}\b` (the UID pattern). -/
def searchUid (cs : List Char) : Option (List Char) := searchUidAux none cs

/-- Match of `Z\d{7}` at the current position: the literal `Z` followed by
seven digits, with no constraint on what follows them. -/
def matchPassportAt (cs : List Char) : Option (List Char) :=
  match cs with
  | 'Z' :: rest =>
    if 7 ≤ rest.length && (rest.take 7).all Char.isDigit then
      some ('Z' :: rest.take 7)
    else none
  | _ => none

/-- Leftmost match of `Z\d{7}` (the passport pattern). -/
def searchPassport : List Char → Option (List Char)
  | [] => none
  | c :: rest =>
    match matchPassportAt (c :: rest) with
    | some m => some m
    | none => searchPassport rest

/-- Match of `\d{4}/\d{2}/\d{2}` at the current position. -/
def matchDateAt : List Char → Option (List Char)
  | a :: b :: c :: d :: e :: f :: g :: h :: i :: j :: _ =>
    if a.isDigit && b.isDigit && c.isDigit && d.isDigit && e == '/'
        && f.isDigit && g.isDigit && h == '/' && i.isDigit && j.isDigit then
      some [a, b, c, d, e, f, g, h, i, j]
    else none
  | _ => none

/-- Fuel-driven scan for `findallDates`; each step consumes at least one
character, so fuel at least the list length never runs out. -/
def findallDatesF : Nat → List Char → List String
  | 0, _ => []
  | _ + 1, [] => []
  | fuel + 1, c :: rest =>
    match matchDateAt (c :: rest) with
    | some m => String.mk m :: findallDatesF fuel (rest.drop 9)
    | none => findallDatesF fuel rest

/-- `re.findall(r'\d{4}/\d{2}/\d{2}', text)`: all non-overlapping matches in
a single left-to-right scan, resuming after the end of each match. -/
def findallDates (cs : List Char) : List String :=
  findallDatesF cs.length cs

/-- Positions at which a `\d{4}/\d{2}/\d{2}`-shaped substring starts in the
text (all occurrences, including overlapping ones). -/
def dateOccurrences (cs : List Char) : List Nat :=
  (List.range (cs.length + 1)).filter (fun i => (matchDateAt (cs.drop i)).isSome)

/-- Greedy match of `([A-Z]+\s+){n,}[A-Z]+` at the current position,
driven by fuel.  The classes `[A-Z]` and `\s` are disjoint, so the only
backtracking the pattern ever performs is handing the letters of the last
repetition to the trailing `[A-Z]+` when nothing follows the final
whitespace run.  Each recursion consumes at least two characters, so fuel
of at least the list length plus one never runs out. -/
def matchNameTailF : Nat → Nat → List Char → Option (List Char)
  | 0, _, _ => none
  | fuel + 1, n, cs =>
    match spanP isUpperAZ cs with
    | ([], _) => none
    | (uc :: ut, r1) =>
      match spanP isWsChar r1 with
      | ([], _) => if n = 0 then some (uc :: ut) else none
      | (wc :: wt, r2) =>
        match matchNameTailF fuel (n - 1) r2 with
        | some m => some ((uc :: ut) ++ (wc :: wt) ++ m)
        | none => if n = 0 then some (uc :: ut) else none

/-- Match of `([A-Z]+\s+){2,}[A-Z]+` at the current position. -/
def matchNameAt (cs : List Char) : Option (List Char) :=
  matchNameTailF (cs.length + 1) 2 cs

/-- Leftmost match of `([A-Z]+\s+){2,}[A-Z]+` (the name pattern). -/
def searchName : List Char → Option (List Char)
  | [] => none
  | c :: rest =>
    match matchNameAt (c :: rest) with
    | some m => some m
    | none => searchName rest

/-- Greedy completion of `.*SERVICES CO\.` after the literal `MACKSOFY`:
the largest split point `k` such that the gap contains no newline (`.` does
not match `\n`) and the literal `SERVICES CO.` follows. -/
def sponsorCompletion (rest : List Char) : Option Nat :=
  ((List.range (rest.length + 1)).filter (fun k =>
    ((rest.take k).all (fun c => !(c == '\n')))
      && "SERVICES CO.".data.isPrefixOf (rest.drop k))).getLast?

/-- Match of `MACKSOFY.*SERVICES CO\.` at the current position. -/
def matchSponsorAt (cs : List Char) : Option (List Char) :=
  if "MACKSOFY".data.isPrefixOf cs then
    match sponsorCompletion (cs.drop 8) with
    | some k => some ("MACKSOFY".data ++ (cs.drop 8).take (k + 12))
    | none => none
  else none

/-- Leftmost match of `MACKSOFY.*SERVICES CO\.` (the sponsor pattern). -/
def searchSponsor : List Char → Option (List Char)
  | [] => none
  | c :: rest =>
    match matchSponsorAt (c :: rest) with
    | some m => some m
    | none => searchSponsor rest

/-! ## `extract_using_regex` (source lines 129-179) -/

/-- The fresh record with every schema key bound to the sentinel, as built
at the top of `extract_using_regex`. -/
def notFoundInfo : List (String × String) :=
  [("name", "Not Found"), ("uid_no", "Not Found"), ("passport_no", "Not Found"),
   ("profession", "Not Found"), ("sponsor", "Not Found"),
   ("place_of_issue", "Not Found"), ("issue_date", "Not Found"),
   ("expiry_date", "Not Found")]

/-- `if match: d[k] = match_text` — conditional field assignment. -/
def maybeSet (d : List (String × String)) (k : String) :
    Option (List Char) → List (String × String)
  | some m => dictSet d k (String.mk m)
  | none => d

/-- The date step: `if len(date_matches) >= 2` assign the first two matches
to `issue_date` and `expiry_date`. -/
def dateStep (d : List (String × String)) (ds : List String) :
    List (String × String) :=
  match ds with
  | d1 :: d2 :: _ => dictSet (dictSet d "issue_date" d1) "expiry_date" d2
  | _ => d

/-- The profession step: `if 'PARTNER' in text or 'Partner' in text`. -/
def profStep (d : List (String × String)) (b : Bool) :
    List (String × String) :=
  if b then dictSet d "profession" "Partner" else d

/-- `EmiratesIDExtractor.extract_using_regex` (source lines 129-179): the
deterministic fallback extractor. -/
def extract_using_regex (text : String) : List (String × String) :=
  let extracted_info := notFoundInfo
  let extracted_info := maybeSet extracted_info "place_of_issue" (searchPlace text.data)
  let extracted_info := maybeSet extracted_info "uid_no" (searchUid text.data)
  let extracted_info := maybeSet extracted_info "passport_no" (searchPassport text.data)
  let extracted_info := dateStep extracted_info (findallDates text.data)
  let extracted_info := maybeSet extracted_info "name" (searchName text.data)
  let extracted_info :=
    profStep extracted_info (strContains text "PARTNER" || strContains text "Partner")
  maybeSet extracted_info "sponsor" (searchSponsor text.data)

/-! ## `process_and_query` post-processing (source lines 101-127) -/

/-- Trigger of the first swap rule: the upper-cased profession contains
`SERVICES CO` or `DATA MANAGEMENT`. -/
def trigProf (pv : String) : Bool :=
  strContains pv "SERVICES CO" || strContains pv "DATA MANAGEMENT"

/-- Trigger of the second swap rule: the upper-cased sponsor, stripped,
equals `PARTNER` or `PARTNER (FEMALE)`. -/
def trigSpon (sv : String) : Bool :=
  pyStrip sv == "PARTNER" || pyStrip sv == "PARTNER (FEMALE)"

/-- The profession/sponsor post-processing of `process_and_query` (source
lines 107-119): both `if` statements run in sequence, and both assign the
upper-cased snapshots `sponsor_value, prof_value` taken before either
check. -/
def disambiguate (extracted_info : List (String × String)) :
    List (String × String) :=
  match dictGet extracted_info "profession", dictGet extracted_info "sponsor" with
  | some prof, some spon =>
    let prof_value := strUpper prof
    let sponsor_value := strUpper spon
    let info1 :=
      if trigProf prof_value then
        dictSet (dictSet extracted_info "profession" sponsor_value)
          "sponsor" prof_value
      else extracted_info
    if trigSpon sponsor_value then
      dictSet (dictSet info1 "profession" sponsor_value) "sponsor" prof_value
    else info1
  | _, _ => extracted_info

/-- Modelled from the spec (section 4.4): the disambiguation pass as the
specification words it — the two swap rules checked in order with the first
match winning (`if` / `else if`), swapping via the same upper-cased
snapshots.  Used only to compare against the source's `disambiguate`. -/
def disambiguateFirstMatch (extracted_info : List (String × String)) :
    List (String × String) :=
  match dictGet extracted_info "profession", dictGet extracted_info "sponsor" with
  | some prof, some spon =>
    let prof_value := strUpper prof
    let sponsor_value := strUpper spon
    if trigProf prof_value then
      dictSet (dictSet extracted_info "profession" sponsor_value)
        "sponsor" prof_value
    else if trigSpon sponsor_value then
      dictSet (dictSet extracted_info "profession" sponsor_value)
        "sponsor" prof_value
    else extracted_info
  | _, _ => extracted_info

/-- The parse-and-postprocess tail of `process_and_query` (source lines
101-124), from the raw model response onward.  `parseJson` stands for
`json.loads` restricted to flat string-valued objects, returning `none`
exactly when `json.JSONDecodeError` would be raised. -/
def process_parse (parseJson : String → Option (List (String × String)))
    (result : String) : List (String × String) :=
  match parseJson result with
  | some extracted_info => disambiguate extracted_info
  | none => extract_using_regex result

/-- `EmiratesIDExtractor.process_and_query` (source lines 51-127), with the
effectful prefix (splitter, embeddings, similarity search, `chain.run`)
collapsed into the `chainRun` outcome: a failure there is wrapped and
re-raised; a raw response is parsed and post-processed. -/
def process_and_query (parseJson : String → Option (List (String × String)))
    (chainRun : Except String String) :
    Except String (List (String × String)) :=
  match chainRun with
  | Except.error e => Except.error ("Error in LLM processing: " ++ e)
  | Except.ok result => Except.ok (process_parse parseJson result)

/-! ## `extract_text_from_image` and the S3 store (source lines 43-49,
181-213) -/

/-- The S3 bucket, modelled as the list of stored object keys. -/
structure S3State where
  objects : List String
deriving DecidableEq, Repr

/-- `upload_to_s3` on success: the object appears under the key. -/
def upload_to_s3 (st : S3State) (key : String) : S3State :=
  ⟨key :: st.objects⟩

/-- `s3_client.delete_object`: every object under the key is removed. -/
def delete_object (st : S3State) (key : String) : S3State :=
  ⟨st.objects.filter (fun k => !(k == key))⟩

/-- One Textract block: only `Text` and `BlockType` are consumed. -/
structure Block where
  Text : String
  BlockType : String

/-- `EmiratesIDExtractor.extract_text_from_image` (source lines 181-213).
`uploadOk` is the outcome of the S3 upload, `textract` the outcome of
`detect_document_text`, `llm` the outcome of the model call on the
extracted text.  Every exception raised after the upload propagates out of
the `try` block, so the `delete_object` call on line 208 runs only when all
previous steps succeed. -/
def extract_text_from_image (st : S3State) (uploadOk : Bool)
    (image_base : String) (textract : Except String (List Block))
    (parseJson : String → Option (List (String × String)))
    (llm : String → Except String String) :
    Except String (List (String × String)) × S3State :=
  let s3_file_path := "emirates_ids/" ++ image_base
  if uploadOk then
    let st1 := upload_to_s3 st s3_file_path
    match textract with
    | Except.error e =>
      (Except.error ("Error processing Emirates ID: " ++ e), st1)
    | Except.ok response =>
      let extracted_text := String.intercalate " "
        ((response.filter (fun b => b.BlockType == "LINE")).map (fun b => b.Text))
      match process_and_query parseJson (llm extracted_text) with
      | Except.error e =>
        (Except.error ("Error processing Emirates ID: " ++ e), st1)
      | Except.ok extracted_info =>
        (Except.ok extracted_info, delete_object st1 s3_file_path)
  else
    (Except.error "Error processing Emirates ID: Error uploading to S3", st)

/-! ## Helper lemmas: dictionaries -/

theorem listMapId {α : Type} (l : List α) (f : α → α)
    (h : ∀ p ∈ l, f p = p) : l.map f = l := by
  induction l with
  | nil => rfl
  | cons p t ih =>
    simp only [List.map_cons, h p (List.mem_cons_self p t), List.cons.injEq,
      true_and]
    exact ih (fun q hq => h q (List.mem_cons_of_mem p hq))

theorem dictGet_none_of_any_false {d : List (String × String)} {k : String}
    (h : d.any (fun p => p.1 == k) = false) : dictGet d k = none := by
  induction d with
  | nil => rfl
  | cons p t ih =>
    simp only [List.any_cons, Bool.or_eq_false_iff] at h
    simp only [dictGet, h.1, ih h.2, Bool.false_eq_true, if_false]

theorem dictGet_mapReplace_self {d : List (String × String)} {k : String}
    (v : String) (h : d.any (fun p => p.1 == k) = true) :
    dictGet (d.map (fun p => if p.1 == k then (p.1, v) else p)) k = some v := by
  induction d with
  | nil => simp at h
  | cons p t ih =>
    cases hp : p.1 == k with
    | true => simp [dictGet, hp]
    | false =>
      simp only [List.any_cons, hp, Bool.false_or] at h
      simp only [List.map_cons, hp, Bool.false_eq_true, if_false, dictGet,
        ih h]

theorem dictGet_mapReplace_ne {d : List (String × String)} {k k' : String}
    (v : String) (h : k' ≠ k) :
    dictGet (d.map (fun p => if p.1 == k then (p.1, v) else p)) k' =
      dictGet d k' := by
  induction d with
  | nil => rfl
  | cons p t ih =>
    cases hp : p.1 == k with
    | true =>
      have hpk : p.1 = k := eq_of_beq hp
      have hne : (p.1 == k') = false := by
        simp only [beq_eq_false_iff_ne, ne_eq, hpk]
        exact fun hc => h hc.symm
      simp only [List.map_cons, hp, if_true, dictGet, hne, Bool.false_eq_true,
        if_false, ih]
    | false =>
      simp only [List.map_cons, hp, Bool.false_eq_true, if_false, dictGet]
      cases hq : p.1 == k' with
      | true => simp
      | false => simp only [Bool.false_eq_true, if_false, ih]

theorem dictGet_appendOne_ne {d : List (String × String)} {k k' : String}
    (v : String) (h : k' ≠ k) :
    dictGet (d ++ [(k, v)]) k' = dictGet d k' := by
  induction d with
  | nil =>
    have : (k == k') = false := by
      simp only [beq_eq_false_iff_ne, ne_eq]
      exact fun hc => h hc.symm
    simp [dictGet, this]
  | cons p t ih =>
    simp only [List.cons_append, dictGet]
    cases hq : p.1 == k' with
    | true => simp
    | false =>
      simp only [Bool.false_eq_true, if_false]
      exact ih

theorem dictGet_dictSet_self (d : List (String × String)) (k v : String) :
    dictGet (dictSet d k v) k = some v := by
  unfold dictSet
  cases ha : d.any (fun p => p.1 == k) with
  | true => simp only [if_true, dictGet_mapReplace_self v ha]
  | false =>
    simp only [Bool.false_eq_true, if_false]
    have hnone : dictGet d k = none := dictGet_none_of_any_false ha
    induction d with
    | nil => simp [dictGet]
    | cons p t ih =>
      simp only [List.any_cons, Bool.or_eq_false_iff] at ha
      simp only [dictGet, ha.1, Bool.false_eq_true, if_false] at hnone
      simp only [List.cons_append, dictGet, ha.1, Bool.false_eq_true, if_false]
      exact ih ha.2 hnone

theorem dictGet_dictSet_ne (d : List (String × String)) {k k' : String}
    (v : String) (h : k' ≠ k) : dictGet (dictSet d k v) k' = dictGet d k' := by
  unfold dictSet
  cases ha : d.any (fun p => p.1 == k) with
  | true => simp only [if_true, dictGet_mapReplace_ne v h]
  | false =>
    simp only [Bool.false_eq_true, if_false, dictGet_appendOne_ne v h]

theorem any_dictSet_of_any (d : List (String × String)) (k v : String)
    {k' : String} (h : d.any (fun p => p.1 == k') = true) :
    (dictSet d k v).any (fun p => p.1 == k') = true := by
  unfold dictSet
  cases ha : d.any (fun p => p.1 == k) with
  | true =>
    simp only [if_true]
    simp only [List.any_eq_true] at h ⊢
    obtain ⟨p, hp, hpk⟩ := h
    have hpk' : p.1 = k' := eq_of_beq hpk
    refine ⟨if p.1 == k then (p.1, v) else p, List.mem_map_of_mem _ hp, ?_⟩
    cases hc : p.1 == k with
    | true => simp only [if_true]; exact beq_iff_eq.mpr hpk'
    | false => simp only [Bool.false_eq_true, if_false]; exact hpk
  | false =>
    simp only [Bool.false_eq_true, if_false, List.any_append, h, Bool.true_or]

theorem any_of_dictGet_eq_some {d : List (String × String)} {k v : String}
    (h : dictGet d k = some v) : d.any (fun p => p.1 == k) = true := by
  induction d with
  | nil => simp [dictGet] at h
  | cons p t ih =>
    cases hp : p.1 == k with
    | true => simp [hp]
    | false =>
      simp only [dictGet, hp, Bool.false_eq_true, if_false] at h
      simp only [List.any_cons, hp, Bool.false_or]
      exact ih h

theorem dictSet_keyed (d : List (String × String)) (k v : String) :
    ∀ p ∈ dictSet d k v, p.1 = k → p = (k, v) := by
  unfold dictSet
  cases ha : d.any (fun p => p.1 == k) with
  | true =>
    simp only [if_true]
    intro p hp hpk
    simp only [List.mem_map] at hp
    obtain ⟨q, _, hq⟩ := hp
    cases hc : q.1 == k with
    | true =>
      simp only [hc, if_true] at hq
      subst hq
      have hqk : q.1 = k := by simpa using hpk
      rw [hqk]
    | false =>
      simp only [hc, Bool.false_eq_true, if_false] at hq
      subst hq
      rw [beq_eq_false_iff_ne] at hc
      exact absurd hpk hc
  | false =>
    simp only [Bool.false_eq_true, if_false]
    intro p hp hpk
    rcases List.mem_append.mp hp with hd | hs
    · exfalso
      have : d.any (fun p => p.1 == k) = true := by
        simp only [List.any_eq_true]
        exact ⟨p, hd, beq_iff_eq.mpr hpk⟩
      rw [this] at ha
      exact Bool.true_eq_false.mp ha
    · simpa using hs

theorem dictSet_keyed_other (d : List (String × String)) (k v : String)
    {k' w : String} (hne : k' ≠ k)
    (h : ∀ p ∈ d, p.1 = k' → p = (k', w)) :
    ∀ p ∈ dictSet d k v, p.1 = k' → p = (k', w) := by
  unfold dictSet
  cases ha : d.any (fun p => p.1 == k) with
  | true =>
    simp only [if_true]
    intro p hp hpk
    simp only [List.mem_map] at hp
    obtain ⟨q, hq, hqe⟩ := hp
    cases hc : q.1 == k with
    | true =>
      exfalso
      have hqk : q.1 = k := eq_of_beq hc
      simp only [hc, if_true] at hqe
      subst hqe
      simp only at hpk
      exact hne (by rw [← hpk, hqk])
    | false =>
      simp only [hc, Bool.false_eq_true, if_false] at hqe
      subst hqe
      exact h q hq hpk
  | false =>
    simp only [Bool.false_eq_true, if_false]
    intro p hp hpk
    rcases List.mem_append.mp hp with hd | hs
    · exact h p hd hpk
    · simp only [List.mem_singleton] at hs
      subst hs
      simp only at hpk
      exact absurd hpk.symm hne

theorem dictSet_eq_self (d : List (String × String)) (k v : String)
    (ha : d.any (fun p => p.1 == k) = true)
    (h : ∀ p ∈ d, p.1 = k → p = (k, v)) : dictSet d k v = d := by
  unfold dictSet
  simp only [ha, if_true]
  apply listMapId
  intro p hp
  cases hc : p.1 == k with
  | true =>
    have hpk : p.1 = k := eq_of_beq hc
    have := h p hp hpk
    simp only [hc, if_true, this]
  | false => simp only [hc, Bool.false_eq_true, if_false]

theorem keysOf_dictSet (d : List (String × String)) (k v : String)
    (ha : d.any (fun p => p.1 == k) = true) :
    keysOf (dictSet d k v) = keysOf d := by
  unfold dictSet keysOf
  simp only [ha, if_true, List.map_map]
  apply List.map_congr_left
  intro p _
  simp only [Function.comp_apply]
  cases hc : p.1 == k with
  | true => simp only [hc, if_true]
  | false => simp only [hc, Bool.false_eq_true, if_false]

/-! ## Helper lemmas: `spanP` -/

theorem spanP_length (p : Char → Bool) (cs : List Char) :
    (spanP p cs).1.length + (spanP p cs).2.length = cs.length := by
  induction cs with
  | nil => rfl
  | cons c t ih =>
    cases hc : p c with
    | true =>
      have hstep : spanP p (c :: t) = (c :: (spanP p t).1, (spanP p t).2) := by
        simp [spanP, hc]
      rw [hstep]
      simp only [List.length_cons]
      omega
    | false =>
      have hstep : spanP p (c :: t) = ([], c :: t) := by
        simp [spanP, hc]
      rw [hstep]
      simp only [List.length_nil, List.length_cons]
      omega

theorem spanP_append_eq (p : Char → Bool) (cs : List Char) :
    (spanP p cs).1 ++ (spanP p cs).2 = cs := by
  induction cs with
  | nil => rfl
  | cons c t ih =>
    cases hc : p c with
    | true => simp only [spanP, hc, if_true, List.cons_append, ih]
    | false => simp only [spanP, hc, Bool.false_eq_true, if_false, List.nil_append]

theorem spanP_all_stop (p : Char → Bool) (u : List Char) (rest : List Char)
    (hu : u.all p = true) (hstop : ∀ c ∈ rest.head?, p c = false) :
    spanP p (u ++ rest) = (u, rest) := by
  induction u with
  | nil =>
    cases rest with
    | nil => rfl
    | cons c t =>
      have := hstop c (by simp)
      simp only [List.nil_append, spanP, this, Bool.false_eq_true, if_false]
  | cons c t ih =>
    simp only [List.all_cons, Bool.and_eq_true] at hu
    simp only [List.cons_append, spanP, hu.1, if_true, List.append_eq]
    rw [ih hu.2]

/-! ## Helper lemmas: the extraction chain, field by field -/

theorem dictGet_maybeSet_ne (d : List (String × String)) (k : String)
    (o : Option (List Char)) {k' : String} (h : k' ≠ k) :
    dictGet (maybeSet d k o) k' = dictGet d k' := by
  cases o with
  | none => rfl
  | some m => simp only [maybeSet, dictGet_dictSet_ne d _ h]

theorem dictGet_maybeSet_self (d : List (String × String)) (k : String)
    (o : Option (List Char)) :
    dictGet (maybeSet d k o) k =
      match o with
      | some m => some (String.mk m)
      | none => dictGet d k := by
  cases o with
  | none => rfl
  | some m => simp only [maybeSet, dictGet_dictSet_self]

theorem dictGet_dateStep_ne (d : List (String × String)) (ds : List String)
    {k : String} (h1 : k ≠ "issue_date") (h2 : k ≠ "expiry_date") :
    dictGet (dateStep d ds) k = dictGet d k := by
  unfold dateStep
  match ds with
  | [] => rfl
  | [d1] => rfl
  | d1 :: d2 :: rest =>
    simp only [dictGet_dictSet_ne _ _ h2, dictGet_dictSet_ne _ _ h1]

theorem dictGet_dateStep_issue (d : List (String × String)) (ds : List String) :
    dictGet (dateStep d ds) "issue_date" =
      match ds with
      | d1 :: _ :: _ => some d1
      | _ => dictGet d "issue_date" := by
  unfold dateStep
  match ds with
  | [] => rfl
  | [d1] => rfl
  | d1 :: d2 :: rest =>
    simp only [dictGet_dictSet_ne _ _ (by decide : "issue_date" ≠ "expiry_date"),
      dictGet_dictSet_self]

theorem dictGet_dateStep_expiry (d : List (String × String)) (ds : List String) :
    dictGet (dateStep d ds) "expiry_date" =
      match ds with
      | _ :: d2 :: _ => some d2
      | _ => dictGet d "expiry_date" := by
  unfold dateStep
  match ds with
  | [] => rfl
  | [d1] => rfl
  | d1 :: d2 :: rest => simp only [dictGet_dictSet_self]

theorem dictGet_profStep_ne (d : List (String × String)) (b : Bool)
    {k : String} (h : k ≠ "profession") :
    dictGet (profStep d b) k = dictGet d k := by
  unfold profStep
  cases b with
  | true => simp only [if_true, dictGet_dictSet_ne _ _ h]
  | false => rfl

theorem dictGet_profStep_self (d : List (String × String)) (b : Bool) :
    dictGet (profStep d b) "profession" =
      if b then some "Partner" else dictGet d "profession" := by
  unfold profStep
  cases b with
  | true => simp only [if_true, dictGet_dictSet_self]
  | false => simp only [Bool.false_eq_true, if_false]

theorem dictGet_extract_place (text : String) :
    dictGet (extract_using_regex text) "place_of_issue" =
      some (match searchPlace text.data with
            | some m => String.mk m
            | none => "Not Found") := by
  unfold extract_using_regex
  rw [dictGet_maybeSet_ne _ _ _ (by decide)]
  rw [dictGet_profStep_ne _ _ (by decide)]
  rw [dictGet_maybeSet_ne _ _ _ (by decide)]
  rw [dictGet_dateStep_ne _ _ (by decide) (by decide)]
  rw [dictGet_maybeSet_ne _ _ _ (by decide)]
  rw [dictGet_maybeSet_ne _ _ _ (by decide)]
  rw [dictGet_maybeSet_self]
  cases h : searchPlace text.data with
  | some m => rfl
  | none => rfl

theorem dictGet_extract_uid (text : String) :
    dictGet (extract_using_regex text) "uid_no" =
      some (match searchUid text.data with
            | some m => String.mk m
            | none => "Not Found") := by
  unfold extract_using_regex
  rw [dictGet_maybeSet_ne _ _ _ (by decide)]
  rw [dictGet_profStep_ne _ _ (by decide)]
  rw [dictGet_maybeSet_ne _ _ _ (by decide)]
  rw [dictGet_dateStep_ne _ _ (by decide) (by decide)]
  rw [dictGet_maybeSet_ne _ _ _ (by decide)]
  rw [dictGet_maybeSet_self]
  rw [dictGet_maybeSet_ne _ _ _ (by decide)]
  cases h : searchUid text.data with
  | some m => rfl
  | none => rfl

theorem dictGet_extract_passport (text : String) :
    dictGet (extract_using_regex text) "passport_no" =
      some (match searchPassport text.data with
            | some m => String.mk m
            | none => "Not Found") := by
  unfold extract_using_regex
  rw [dictGet_maybeSet_ne _ _ _ (by decide)]
  rw [dictGet_profStep_ne _ _ (by decide)]
  rw [dictGet_maybeSet_ne _ _ _ (by decide)]
  rw [dictGet_dateStep_ne _ _ (by decide) (by decide)]
  rw [dictGet_maybeSet_self]
  rw [dictGet_maybeSet_ne _ _ _ (by decide)]
  rw [dictGet_maybeSet_ne _ _ _ (by decide)]
  cases h : searchPassport text.data with
  | some m => rfl
  | none => rfl

theorem dictGet_extract_issue (text : String) :
    dictGet (extract_using_regex text) "issue_date" =
      some (match findallDates text.data with
            | d1 :: _ :: _ => d1
            | _ => "Not Found") := by
  unfold extract_using_regex
  rw [dictGet_maybeSet_ne _ _ _ (by decide)]
  rw [dictGet_profStep_ne _ _ (by decide)]
  rw [dictGet_maybeSet_ne _ _ _ (by decide)]
  rw [dictGet_dateStep_issue]
  cases h : findallDates text.data with
  | nil =>
    rw [dictGet_maybeSet_ne _ _ _ (by decide)]
    rw [dictGet_maybeSet_ne _ _ _ (by decide)]
    rw [dictGet_maybeSet_ne _ _ _ (by decide)]
    rfl
  | cons d1 t =>
    cases t with
    | nil =>
      rw [dictGet_maybeSet_ne _ _ _ (by decide)]
      rw [dictGet_maybeSet_ne _ _ _ (by decide)]
      rw [dictGet_maybeSet_ne _ _ _ (by decide)]
      rfl
    | cons d2 t2 => rfl

theorem dictGet_extract_expiry (text : String) :
    dictGet (extract_using_regex text) "expiry_date" =
      some (match findallDates text.data with
            | _ :: d2 :: _ => d2
            | _ => "Not Found") := by
  unfold extract_using_regex
  rw [dictGet_maybeSet_ne _ _ _ (by decide)]
  rw [dictGet_profStep_ne _ _ (by decide)]
  rw [dictGet_maybeSet_ne _ _ _ (by decide)]
  rw [dictGet_dateStep_expiry]
  cases h : findallDates text.data with
  | nil =>
    rw [dictGet_maybeSet_ne _ _ _ (by decide)]
    rw [dictGet_maybeSet_ne _ _ _ (by decide)]
    rw [dictGet_maybeSet_ne _ _ _ (by decide)]
    rfl
  | cons d1 t =>
    cases t with
    | nil =>
      rw [dictGet_maybeSet_ne _ _ _ (by decide)]
      rw [dictGet_maybeSet_ne _ _ _ (by decide)]
      rw [dictGet_maybeSet_ne _ _ _ (by decide)]
      rfl
    | cons d2 t2 => rfl

theorem dictGet_extract_name (text : String) :
    dictGet (extract_using_regex text) "name" =
      some (match searchName text.data with
            | some m => String.mk m
            | none => "Not Found") := by
  unfold extract_using_regex
  rw [dictGet_maybeSet_ne _ _ _ (by decide)]
  rw [dictGet_profStep_ne _ _ (by decide)]
  rw [dictGet_maybeSet_self]
  cases h : searchName text.data with
  | some m => rfl
  | none =>
    rw [dictGet_dateStep_ne _ _ (by decide) (by decide)]
    rw [dictGet_maybeSet_ne _ _ _ (by decide)]
    rw [dictGet_maybeSet_ne _ _ _ (by decide)]
    rw [dictGet_maybeSet_ne _ _ _ (by decide)]
    rfl

theorem dictGet_extract_profession (text : String) :
    dictGet (extract_using_regex text) "profession" =
      some (if strContains text "PARTNER" || strContains text "Partner"
            then "Partner" else "Not Found") := by
  unfold extract_using_regex
  rw [dictGet_maybeSet_ne _ _ _ (by decide)]
  rw [dictGet_profStep_self]
  cases h : strContains text "PARTNER" || strContains text "Partner" with
  | true => rfl
  | false =>
    simp only [Bool.false_eq_true, if_false]
    rw [dictGet_maybeSet_ne _ _ _ (by decide)]
    rw [dictGet_dateStep_ne _ _ (by decide) (by decide)]
    rw [dictGet_maybeSet_ne _ _ _ (by decide)]
    rw [dictGet_maybeSet_ne _ _ _ (by decide)]
    rw [dictGet_maybeSet_ne _ _ _ (by decide)]
    rfl

theorem dictGet_extract_sponsor (text : String) :
    dictGet (extract_using_regex text) "sponsor" =
      some (match searchSponsor text.data with
            | some m => String.mk m
            | none => "Not Found") := by
  unfold extract_using_regex
  rw [dictGet_maybeSet_self]
  cases h : searchSponsor text.data with
  | some m => rfl
  | none =>
    rw [dictGet_profStep_ne _ _ (by decide)]
    rw [dictGet_maybeSet_ne _ _ _ (by decide)]
    rw [dictGet_dateStep_ne _ _ (by decide) (by decide)]
    rw [dictGet_maybeSet_ne _ _ _ (by decide)]
    rw [dictGet_maybeSet_ne _ _ _ (by decide)]
    rw [dictGet_maybeSet_ne _ _ _ (by decide)]
    rfl

theorem extract_allKeys (text : String) :
    allKeysPresent (extract_using_regex text) = true := by
  unfold allKeysPresent schemaKeys
  simp only [List.all_cons, List.all_nil, Bool.and_eq_true, Bool.and_true]
  refine ⟨?_, ?_, ?_, ?_, ?_, ?_, ?_, ?_⟩
  · rw [dictGet_extract_name]; rfl
  · rw [dictGet_extract_uid]; rfl
  · rw [dictGet_extract_passport]; rfl
  · rw [dictGet_extract_profession]; rfl
  · rw [dictGet_extract_sponsor]; rfl
  · rw [dictGet_extract_place]; rfl
  · rw [dictGet_extract_issue]; rfl
  · rw [dictGet_extract_expiry]; rfl

/-! ## Helper lemmas: the disambiguation pass -/

theorem swap_twice_eq (info : List (String × String)) (pv sv : String)
    (hp : info.any (fun p => p.1 == "profession") = true)
    (hs : info.any (fun p => p.1 == "sponsor") = true) :
    dictSet (dictSet (dictSet (dictSet info "profession" sv) "sponsor" pv)
        "profession" sv) "sponsor" pv
      = dictSet (dictSet info "profession" sv) "sponsor" pv := by
  have hpY : (dictSet info "profession" sv).any
      (fun p => p.1 == "profession") = true := any_dictSet_of_any _ _ _ hp
  have hsY : (dictSet info "profession" sv).any
      (fun p => p.1 == "sponsor") = true := any_dictSet_of_any _ _ _ hs
  have hpX : (dictSet (dictSet info "profession" sv) "sponsor" pv).any
      (fun p => p.1 == "profession") = true := any_dictSet_of_any _ _ _ hpY
  have hsX : (dictSet (dictSet info "profession" sv) "sponsor" pv).any
      (fun p => p.1 == "sponsor") = true := any_dictSet_of_any _ _ _ hsY
  have hYkeyed : ∀ p ∈ dictSet info "profession" sv,
      p.1 = "profession" → p = ("profession", sv) := dictSet_keyed info _ _
  have hXkeyedP : ∀ p ∈ dictSet (dictSet info "profession" sv) "sponsor" pv,
      p.1 = "profession" → p = ("profession", sv) :=
    dictSet_keyed_other _ "sponsor" pv (by decide) hYkeyed
  have hXkeyedS : ∀ p ∈ dictSet (dictSet info "profession" sv) "sponsor" pv,
      p.1 = "sponsor" → p = ("sponsor", pv) := dictSet_keyed _ _ _
  rw [dictSet_eq_self _ _ _ hpX hXkeyedP]
  exact dictSet_eq_self _ _ _ hsX hXkeyedS

theorem disambiguate_eq_firstMatch (info : List (String × String)) :
    disambiguate info = disambiguateFirstMatch info := by
  unfold disambiguate disambiguateFirstMatch
  cases hp : dictGet info "profession" with
  | none => rfl
  | some prof =>
    cases hs : dictGet info "sponsor" with
    | none => rfl
    | some spon =>
      cases h1 : trigProf (strUpper prof) with
      | false => simp only [h1, Bool.false_eq_true, if_false]
      | true =>
        cases h2 : trigSpon (strUpper spon) with
        | false => simp only [h1, h2, if_true, Bool.false_eq_true, if_false]
        | true =>
          simp only [h1, h2, if_true]
          exact swap_twice_eq info (strUpper prof) (strUpper spon)
            (any_of_dictGet_eq_some hp) (any_of_dictGet_eq_some hs)

theorem keysOf_disambiguate (info : List (String × String)) :
    keysOf (disambiguate info) = keysOf info := by
  unfold disambiguate
  cases hp : dictGet info "profession" with
  | none => rfl
  | some prof =>
    cases hs : dictGet info "sponsor" with
    | none => rfl
    | some spon =>
      have hap : info.any (fun p => p.1 == "profession") = true :=
        any_of_dictGet_eq_some hp
      have has : info.any (fun p => p.1 == "sponsor") = true :=
        any_of_dictGet_eq_some hs
      cases h1 : trigProf (strUpper prof) with
      | false =>
        cases h2 : trigSpon (strUpper spon) with
        | false => simp only [h1, h2, Bool.false_eq_true, if_false]
        | true =>
          simp only [h1, h2, Bool.false_eq_true, if_false, if_true]
          rw [keysOf_dictSet _ _ _ (any_dictSet_of_any _ _ _ has)]
          rw [keysOf_dictSet _ _ _ hap]
      | true =>
        cases h2 : trigSpon (strUpper spon) with
        | false =>
          simp only [h1, h2, Bool.false_eq_true, if_false, if_true]
          rw [keysOf_dictSet _ _ _ (any_dictSet_of_any _ _ _ has)]
          rw [keysOf_dictSet _ _ _ hap]
        | true =>
          simp only [h1, h2, if_true]
          rw [keysOf_dictSet _ _ _
            (any_dictSet_of_any _ _ _
              (any_dictSet_of_any _ _ _ (any_dictSet_of_any _ _ _ has)))]
          rw [keysOf_dictSet _ _ _
            (any_dictSet_of_any _ _ _ (any_dictSet_of_any _ _ _ hap))]
          rw [keysOf_dictSet _ _ _ (any_dictSet_of_any _ _ _ has)]
          rw [keysOf_dictSet _ _ _ hap]

/-! ## Helper lemmas: shape of a sponsor match -/

theorem matchSponsorAt_shape {cs m : List Char}
    (h : matchSponsorAt cs = some m) :
    m <+: cs ∧ "MACKSOFY".data <+: m ∧ "SERVICES CO.".data <:+ m := by
  unfold matchSponsorAt at h
  by_cases hpre : "MACKSOFY".data.isPrefixOf cs = true
  case neg => simp [hpre] at h
  case pos =>
  simp only [hpre, if_true] at h
  cases hk : sponsorCompletion (cs.drop 8) with
  | none => rw [hk] at h; exact absurd h (by simp)
  | some k =>
    rw [hk] at h
    have hm : m = "MACKSOFY".data ++ (cs.drop 8).take (k + 12) := by
      exact (Option.some.injEq _ _).mp h |>.symm
    obtain ⟨u, hu⟩ := List.isPrefixOf_iff_prefix.mp hpre
    have hlen : ("MACKSOFY".data).length = 8 := rfl
    have hdrop : cs.drop 8 = u := by rw [← hu, ← hlen, List.drop_left]
    unfold sponsorCompletion at hk
    have hmem := List.mem_of_mem_getLast? (Option.mem_def.mpr hk)
    rw [List.mem_filter] at hmem
    obtain ⟨hkr, hkp⟩ := hmem
    rw [List.mem_range] at hkr
    rw [Bool.and_eq_true] at hkp
    obtain ⟨w, hw⟩ := List.isPrefixOf_iff_prefix.mp hkp.2
    rw [hdrop] at hm hkr hw
    have htake : u.take (k + 12) = u.take k ++ "SERVICES CO.".data := by
      rw [List.take_add, ← hw]
      have hls : ("SERVICES CO.".data).length = 12 := rfl
      conv_lhs => rw [← hls, List.take_left]
    refine ⟨?_, ?_, ?_⟩
    · refine ⟨u.drop (k + 12), ?_⟩
      rw [hm, List.append_assoc, List.take_append_drop, hu]
    · exact ⟨u.take (k + 12), hm.symm⟩
    · refine ⟨"MACKSOFY".data ++ u.take k, ?_⟩
      rw [hm, htake, List.append_assoc]

theorem searchSponsor_shape {cs m : List Char}
    (h : searchSponsor cs = some m) :
    m <:+: cs ∧ "MACKSOFY".data <+: m ∧ "SERVICES CO.".data <:+ m := by
  induction cs with
  | nil => simp [searchSponsor] at h
  | cons c rest ih =>
    unfold searchSponsor at h
    cases hm : matchSponsorAt (c :: rest) with
    | some m0 =>
      rw [hm] at h
      have hmm : m0 = m := (Option.some.injEq _ _).mp h
      subst hmm
      obtain ⟨⟨t, ht⟩, h2, h3⟩ := matchSponsorAt_shape hm
      exact ⟨⟨[], t, by simpa using ht⟩, h2, h3⟩
    | none =>
      rw [hm] at h
      obtain ⟨⟨s, t, hst⟩, h2, h3⟩ := ih h
      exact ⟨⟨c :: s, t, by simpa using hst⟩, h2, h3⟩

/-! ## Helper lemmas: the name pattern -/

theorem isUpperAZ_ws_false {c : Char} (h : isUpperAZ c = true) :
    isWsChar c = false := by
  unfold isWsChar
  simp only [Bool.or_eq_false_iff]
  refine ⟨⟨⟨⟨⟨?_, ?_⟩, ?_⟩, ?_⟩, ?_⟩, ?_⟩ <;>
    (rw [beq_eq_false_iff_ne]; intro he; subst he; revert h; decide)

theorem head_ws_false {l : List Char} (ha : l.all isUpperAZ = true) :
    ∀ c ∈ l.head?, isWsChar c = false := by
  intro c hc
  cases l with
  | nil => simp at hc
  | cons x t =>
    simp only [List.head?_cons, Option.mem_def, Option.some.injEq] at hc
    subst hc
    simp only [List.all_cons, Bool.and_eq_true] at ha
    exact isUpperAZ_ws_false ha.1

theorem matchNameTailF_final (fuel n : Nat) (u : List Char) (hu : u ≠ [])
    (hau : u.all isUpperAZ = true) :
    matchNameTailF (fuel + 1) n u = if n = 0 then some u else none := by
  cases u with
  | nil => exact absurd rfl hu
  | cons uc ut =>
    have hs1 : spanP isUpperAZ (uc :: ut) = (uc :: ut, []) := by
      simpa using spanP_all_stop isUpperAZ (uc :: ut) [] hau (by simp)
    unfold matchNameTailF
    rw [hs1]
    simp [spanP]

theorem matchNameTailF_step (fuel n : Nat) (u w rest : List Char)
    (hu : u ≠ []) (hau : u.all isUpperAZ = true)
    (hw : w ≠ []) (haw : w.all isWsChar = true)
    (hrest : ∀ c ∈ rest.head?, isWsChar c = false)
    (hrest2 : ∀ c ∈ (w ++ rest).head?, isUpperAZ c = false) :
    matchNameTailF (fuel + 1) n (u ++ w ++ rest) =
      match matchNameTailF fuel (n - 1) rest with
      | some m => some (u ++ w ++ m)
      | none => if n = 0 then some u else none := by
  cases u with
  | nil => exact absurd rfl hu
  | cons uc ut =>
  cases w with
  | nil => exact absurd rfl hw
  | cons wc wt =>
    have hs1 : spanP isUpperAZ ((uc :: ut) ++ ((wc :: wt) ++ rest)) =
        (uc :: ut, (wc :: wt) ++ rest) :=
      spanP_all_stop _ _ _ hau hrest2
    have hs2 : spanP isWsChar ((wc :: wt) ++ rest) = (wc :: wt, rest) :=
      spanP_all_stop _ _ _ haw hrest
    rw [show fuel + 1 = Nat.succ fuel from rfl, matchNameTailF.eq_2]
    rw [List.append_assoc, hs1]
    simp only [hs2]

theorem searchName_three_words (u1 u2 u3 : List Char)
    (h1 : u1 ≠ []) (h2 : u2 ≠ []) (h3 : u3 ≠ [])
    (a1 : u1.all isUpperAZ = true) (a2 : u2.all isUpperAZ = true)
    (a3 : u3.all isUpperAZ = true) :
    searchName (u1 ++ (' ' :: (u2 ++ (' ' :: u3)))) =
      some (u1 ++ (' ' :: (u2 ++ (' ' :: u3)))) := by
  have hm3 : ∀ f : Nat, matchNameTailF (f + 1) 0 u3 = some u3 := by
    intro f
    rw [matchNameTailF_final f 0 u3 h3 a3]
    rfl
  have hsp : ∀ X : List Char, ∀ c ∈ (' ' :: X).head?, isUpperAZ c = false := by
    intro X c hc
    simp only [List.head?_cons, Option.mem_def, Option.some.injEq] at hc
    subst hc
    decide
  have hu2head : ∀ c ∈ (u2 ++ (' ' :: u3)).head?, isWsChar c = false := by
    cases u2 with
    | nil => exact absurd rfl h2
    | cons c2 t2 =>
      intro c hc
      simp only [List.cons_append, List.head?_cons, Option.mem_def,
        Option.some.injEq] at hc
      subst hc
      simp only [List.all_cons, Bool.and_eq_true] at a2
      exact isUpperAZ_ws_false a2.1
  have hm2 : ∀ f : Nat, matchNameTailF (f + 2) 1 (u2 ++ (' ' :: u3)) =
      some (u2 ++ (' ' :: u3)) := by
    intro f
    have hstep := matchNameTailF_step (f + 1) 1 u2 [' '] u3 h2 a2 (by simp)
      (by decide) (head_ws_false a3) (by simpa using hsp u3)
    simp only [List.append_assoc, List.singleton_append] at hstep
    rw [show f + 2 = f + 1 + 1 from rfl, hstep, hm3 f]
  have hm1 : ∀ f : Nat, matchNameTailF (f + 3) 2 (u1 ++ (' ' :: (u2 ++ (' ' :: u3)))) =
      some (u1 ++ (' ' :: (u2 ++ (' ' :: u3)))) := by
    intro f
    have hstep := matchNameTailF_step (f + 2) 2 u1 [' '] (u2 ++ (' ' :: u3)) h1 a1
      (by simp) (by decide) hu2head (by simpa using hsp (u2 ++ (' ' :: u3)))
    simp only [List.append_assoc, List.singleton_append] at hstep
    rw [show f + 3 = f + 2 + 1 from rfl, hstep, hm2 f]
  have hlen : (u1 ++ (' ' :: (u2 ++ (' ' :: u3)))).length + 1 =
      (u1.length + u2.length + u3.length) + 3 := by
    simp [List.length_append]
    omega
  have hfull2 : matchNameAt (u1 ++ (' ' :: (u2 ++ (' ' :: u3)))) =
      some (u1 ++ (' ' :: (u2 ++ (' ' :: u3)))) := by
    unfold matchNameAt
    rw [hlen, hm1]
  cases u1 with
  | nil => exact absurd rfl h1
  | cons c1 t1 =>
    have hfull : matchNameAt (c1 :: (t1 ++ (' ' :: (u2 ++ (' ' :: u3))))) =
        some (c1 :: (t1 ++ (' ' :: (u2 ++ (' ' :: u3))))) := by
      simpa using hfull2
    simp only [List.cons_append, searchName, List.append_eq, hfull]

/-! ## Helper lemmas: the passport pattern -/

theorem searchPassport_Z (ds : List Char) (h7 : 7 ≤ ds.length)
    (hd : ds.all Char.isDigit = true) :
    searchPassport ('Z' :: ds) = some ('Z' :: ds.take 7) := by
  have htake : (ds.take 7).all Char.isDigit = true := by
    rw [List.all_eq_true] at hd ⊢
    intro c hc
    exact hd c (List.mem_of_mem_take hc)
  have hmatch : matchPassportAt ('Z' :: ds) = some ('Z' :: ds.take 7) := by
    unfold matchPassportAt
    simp [h7, htake]
  simp only [searchPassport, hmatch]

theorem contains_filter_self_false (lst : List String) (key : String) :
    (lst.filter (fun k => !(k == key))).contains key = false := by
  induction lst with
  | nil => rfl
  | cons a t ih =>
    cases ha : a == key with
    | true =>
      simp only [List.filter_cons, ha, Bool.not_true, Bool.false_eq_true,
        if_false]
      exact ih
    | false =>
      have hka : (key == a) = false :=
        beq_eq_false_iff_ne.mpr (fun he => (beq_eq_false_iff_ne.mp ha) he.symm)
      simp only [List.filter_cons, ha, Bool.not_false, if_true,
        List.contains_cons, hka, Bool.false_or]
      exact ih

/-! ## The claims -/

/-- C1, counterexample: a language-model response that parses as the JSON
object holding only the key `name` yields a record with no `uid_no` key at
all — the claim's "all eight schema keys, never missing" fails exactly in
the case it includes, a parsed object omitting schema keys. -/
theorem claim_C1_counterexample :
    (fun s : String =>
      if s == "\x7b\"name\": \"X\"\x7d" then some [("name", "X")]
      else (none : Option (List (String × String)))) "\x7b\"name\": \"X\"\x7d"
      = some [("name", "X")]
    ∧ dictGet (process_parse
        (fun s : String =>
          if s == "\x7b\"name\": \"X\"\x7d" then some [("name", "X")]
          else none) "\x7b\"name\": \"X\"\x7d") "uid_no" = none := by
  constructor
  · rfl
  · rfl

/-- C1, amended: only the regex-fallback path guarantees all eight schema
keys; when the response parses as a JSON object, the returned record has
exactly the parsed object's keys, so schema keys the model omits are
missing from the result. -/
theorem claim_C1_amended
    (parseJson : String → Option (List (String × String))) (raw : String) :
    (parseJson raw = none →
      allKeysPresent (process_parse parseJson raw) = true)
    ∧ (∀ obj, parseJson raw = some obj →
      keysOf (process_parse parseJson raw) = keysOf obj) := by
  constructor
  · intro h
    unfold process_parse
    rw [h]
    exact extract_allKeys raw
  · intro obj h
    unfold process_parse
    rw [h]
    exact keysOf_disambiguate obj

/-- C1, witness for the amended theorem at a concrete failing parse. -/
theorem claim_C1_amended_witness :
    allKeysPresent (process_parse (fun _ => none) "x") = true :=
  (claim_C1_amended (fun _ => none) "x").1 rfl

/-- C2, counterexample: with the upload succeeded and the model call
failing, the invocation returns the wrapped error and the uploaded object
is still in the store — no guaranteed-release cleanup runs. -/
theorem claim_C2_counterexample :
    (extract_text_from_image ⟨[]⟩ true "card.jpg"
        (Except.ok [⟨"hello", "LINE"⟩]) (fun _ => none)
        (fun _ => Except.error "model unavailable")).2.objects.contains
      "emirates_ids/card.jpg" = true
    ∧ (extract_text_from_image ⟨[]⟩ true "card.jpg"
        (Except.ok [⟨"hello", "LINE"⟩]) (fun _ => none)
        (fun _ => Except.error "model unavailable")).1 =
      Except.error
        "Error processing Emirates ID: Error in LLM processing: model unavailable" := by
  constructor
  · rfl
  · rfl

/-- C2, amended: after a successful upload the stored object is deleted
exactly when the whole extraction succeeds; when OCR or model processing
fails, the error propagates and the object remains under its key. -/
theorem claim_C2_amended (st : S3State) (ib : String)
    (tx : Except String (List Block))
    (p : String → Option (List (String × String)))
    (l : String → Except String String) :
    (∀ info, (extract_text_from_image st true ib tx p l).1 = Except.ok info →
      (extract_text_from_image st true ib tx p l).2.objects.contains
        ("emirates_ids/" ++ ib) = false)
    ∧ (∀ e, (extract_text_from_image st true ib tx p l).1 = Except.error e →
      (extract_text_from_image st true ib tx p l).2.objects.contains
        ("emirates_ids/" ++ ib) = true) := by
  unfold extract_text_from_image
  simp only [if_true]
  cases tx with
  | error e =>
    constructor
    · intro info h
      simp at h
    · intro e2 h
      unfold upload_to_s3
      simp [List.contains_cons]
  | ok response =>
    unfold process_and_query
    cases hl : l (String.intercalate " "
        ((response.filter (fun b => b.BlockType == "LINE")).map
          (fun b => b.Text))) with
    | error e =>
      simp only [hl]
      constructor
      · intro info h
        simp at h
      · intro e2 h
        unfold upload_to_s3
        simp [List.contains_cons]
    | ok raw =>
      simp only [hl]
      constructor
      · intro info h
        unfold delete_object upload_to_s3
        exact contains_filter_self_false _ _
      · intro e2 h
        simp at h

/-- C2, witness for the amended theorem on a fully successful run. -/
theorem claim_C2_amended_witness :
    (extract_text_from_image ⟨[]⟩ true "card.jpg" (Except.ok [])
        (fun _ => none) (fun _ => Except.ok "plain")).2.objects.contains
      "emirates_ids/card.jpg" = false :=
  (claim_C2_amended ⟨[]⟩ "card.jpg" (Except.ok []) (fun _ => none)
    (fun _ => Except.ok "plain")).1 (process_parse (fun _ => none) "plain") rfl

/-- C3: when the model response fails to parse as JSON, `process_and_query`
returns exactly the regex extraction of that raw response, with no error;
only a failure of the model call itself propagates, wrapped. -/
theorem claim_C3
    (parseJson : String → Option (List (String × String))) :
    (∀ raw, parseJson raw = none →
      process_and_query parseJson (Except.ok raw) =
        Except.ok (extract_using_regex raw))
    ∧ (∀ e, process_and_query parseJson (Except.error e) =
      Except.error ("Error in LLM processing: " ++ e)) := by
  constructor
  · intro raw h
    simp only [process_and_query, process_parse, h]
  · intro e
    rfl

/-- C3, witness at a concrete unparsable response. -/
theorem claim_C3_witness :
    process_and_query (fun _ => none) (Except.ok "gibberish") =
      Except.ok (extract_using_regex "gibberish") :=
  (claim_C3 (fun _ => none)).1 "gibberish" rfl

/-- C4, counterexample: on the claim's own record the pass swaps the
fields but writes the upper-cased snapshot, so profession becomes
`PARTNER`, not the original-cased `Partner` the claim requires. -/
theorem claim_C4_counterexample :
    dictGet (disambiguate
      [("profession", "MACKSOFY DATA MANAGEMENT & CYBER SECURITY SERVICES CO."),
       ("sponsor", "Partner")]) "profession" = some "PARTNER"
    ∧ ("PARTNER" : String) ≠ "Partner" := by
  constructor
  · rfl
  · decide

/-- C4, amended: the pass swaps the two fields but assigns the upper-cased
snapshot values (casing is preserved only for records no rule touches); on
the given record it yields profession `PARTNER` and sponsor
`MACKSOFY DATA MANAGEMENT & CYBER SECURITY SERVICES CO.`. -/
theorem claim_C4_amended :
    disambiguate
      [("profession", "MACKSOFY DATA MANAGEMENT & CYBER SECURITY SERVICES CO."),
       ("sponsor", "Partner")] =
    [("profession", "PARTNER"),
     ("sponsor", "MACKSOFY DATA MANAGEMENT & CYBER SECURITY SERVICES CO.")] := by
  rfl

/-- C5: the disambiguation pass behaves exactly as first-match-wins rule
ordering — although the source runs both `if` statements, both assign the
same pre-computed snapshots, so a record triggering both rules undergoes a
single effective swap rather than a restoring double swap, as the concrete
both-trigger record shows. -/
theorem claim_C5 :
    (∀ info : List (String × String),
      disambiguate info = disambiguateFirstMatch info)
    ∧ disambiguate
        [("profession", "DATA MANAGEMENT X"), ("sponsor", " Partner (Female) ")]
      = [("profession", " PARTNER (FEMALE) "), ("sponsor", "DATA MANAGEMENT X")] := by
  constructor
  · exact disambiguate_eq_firstMatch
  · rfl

/-- C6: `extract_using_regex` is total — for every input string it returns
a record binding all eight schema keys (each key defaults to the sentinel
and is only ever overwritten, never removed). -/
theorem claim_C6 (text : String) :
    allKeysPresent (extract_using_regex text) = true :=
  extract_allKeys text

/-- C7, counterexample: the text `1111/11/1122/11/11` contains two
overlapping date-shaped substrings (at offsets 0 and 8), yet the
non-overlapping `findall` scan sees only one, so both date fields stay
`Not Found`, contradicting the claim's "at least two substrings" reading. -/
theorem claim_C7_counterexample :
    2 ≤ (dateOccurrences "1111/11/1122/11/11".data).length
    ∧ dictGet (extract_using_regex "1111/11/1122/11/11") "issue_date" =
      some "Not Found"
    ∧ dictGet (extract_using_regex "1111/11/1122/11/11") "expiry_date" =
      some "Not Found" := by
  refine ⟨by decide, ?_, ?_⟩
  · rfl
  · rfl

/-- C7, amended: the date fields are driven by the non-overlapping
left-to-right `findall` scan — when that scan yields at least two matches,
`issue_date` is the first and `expiry_date` the second, and with fewer
than two scan matches both fields stay `Not Found`. -/
theorem claim_C7_amended (text : String) :
    (∀ d1 d2 rest, findallDates text.data = d1 :: d2 :: rest →
      dictGet (extract_using_regex text) "issue_date" = some d1 ∧
      dictGet (extract_using_regex text) "expiry_date" = some d2)
    ∧ ((findallDates text.data).length < 2 →
      dictGet (extract_using_regex text) "issue_date" = some "Not Found" ∧
      dictGet (extract_using_regex text) "expiry_date" = some "Not Found") := by
  constructor
  · intro d1 d2 rest h
    constructor
    · rw [dictGet_extract_issue, h]
    · rw [dictGet_extract_expiry, h]
  · intro h
    cases hd : findallDates text.data with
    | nil =>
      constructor
      · rw [dictGet_extract_issue, hd]
      · rw [dictGet_extract_expiry, hd]
    | cons d1 t =>
      cases t with
      | nil =>
        constructor
        · rw [dictGet_extract_issue, hd]
        · rw [dictGet_extract_expiry, hd]
      | cons d2 t2 =>
        rw [hd] at h
        simp only [List.length_cons] at h
        omega

/-- C7, witness for the amended theorem on two disjoint dates in order. -/
theorem claim_C7_amended_witness :
    dictGet (extract_using_regex "from 2020/01/15 to 2030/01/14")
      "issue_date" = some "2020/01/15"
    ∧ dictGet (extract_using_regex "from 2020/01/15 to 2030/01/14")
      "expiry_date" = some "2030/01/14" :=
  (claim_C7_amended "from 2020/01/15 to 2030/01/14").1
    "2020/01/15" "2030/01/14" [] (by rfl)

/-- C8, counterexample: the input `my AB CD here` holds exactly two
consecutive all-uppercase words, yet the name field stays `Not Found` —
the pattern `([A-Z]+\s+){2,}[A-Z]+` needs at least three uppercase words,
so the claimed two-word match `AB CD` is never produced. -/
theorem claim_C8_counterexample :
    dictGet (extract_using_regex "my AB CD here") "name" = some "Not Found"
    ∧ ("Not Found" : String) ≠ "AB CD" := by
  constructor
  · rfl
  · decide

/-- C8, amended: the name field is the first match of two-or-more
whitespace-terminated uppercase runs followed by a final uppercase run —
at least three consecutive uppercase words; three such words separated by
single spaces are matched whole. -/
theorem claim_C8_amended (u1 u2 u3 : List Char)
    (h1 : u1 ≠ []) (h2 : u2 ≠ []) (h3 : u3 ≠ [])
    (a1 : u1.all isUpperAZ = true) (a2 : u2.all isUpperAZ = true)
    (a3 : u3.all isUpperAZ = true) :
    dictGet (extract_using_regex
        (String.mk (u1 ++ (' ' :: (u2 ++ (' ' :: u3)))))) "name"
      = some (String.mk (u1 ++ (' ' :: (u2 ++ (' ' :: u3))))) := by
  rw [dictGet_extract_name]
  have hdata : (String.mk (u1 ++ (' ' :: (u2 ++ (' ' :: u3))))).data =
      u1 ++ (' ' :: (u2 ++ (' ' :: u3))) := rfl
  rw [hdata, searchName_three_words u1 u2 u3 h1 h2 h3 a1 a2 a3]

/-- C8, witness for the amended theorem at three concrete words. -/
theorem claim_C8_amended_witness :
    dictGet (extract_using_regex
        (String.mk ("AB".data ++ (' ' :: ("CD".data ++ (' ' :: "EF".data))))))
      "name"
      = some (String.mk ("AB".data ++ (' ' :: ("CD".data ++ (' ' :: "EF".data))))) :=
  claim_C8_amended "AB".data "CD".data "EF".data (by decide) (by decide)
    (by decide) (by decide) (by decide) (by decide)

/-- C9, counterexample: in `Z12345678` the letter `Z` is followed by eight
digits, yet `passport_no` is filled with `Z1234567` — the pattern `Z\d{7}`
has no trailing boundary, so a longer digit run still produces a value,
contradicting the claim. -/
theorem claim_C9_counterexample :
    dictGet (extract_using_regex "Z12345678") "passport_no" = some "Z1234567"
    ∧ some ("Z1234567" : String) ≠ some "Not Found" := by
  constructor
  · rfl
  · decide

/-- C9, amended: `passport_no` is the first occurrence of `Z` followed by
at least seven digits, and its value is `Z` plus the first seven of them,
regardless of how many digits follow. -/
theorem claim_C9_amended (ds : List Char) (h7 : 7 ≤ ds.length)
    (hd : ds.all Char.isDigit = true) :
    dictGet (extract_using_regex (String.mk ('Z' :: ds))) "passport_no"
      = some (String.mk ('Z' :: ds.take 7)) := by
  rw [dictGet_extract_passport]
  have hdata : (String.mk ('Z' :: ds)).data = 'Z' :: ds := rfl
  rw [hdata, searchPassport_Z ds h7 hd]

/-- C9, witness for the amended theorem at eight digits after `Z`. -/
theorem claim_C9_amended_witness :
    dictGet (extract_using_regex (String.mk ('Z' :: "12345678".data)))
      "passport_no"
      = some (String.mk ('Z' :: "12345678".data.take 7)) :=
  claim_C9_amended "12345678".data (by decide) (by decide)

/-- C10: for every input, the fallback record's profession is exactly
`Partner` or `Not Found`, and its sponsor is `Not Found` or a contiguous
substring of the input that starts with `MACKSOFY` and ends with
`SERVICES CO.` — the mutual-exclusion invariant holds by construction. -/
theorem claim_C10 (text : String) :
    (dictGet (extract_using_regex text) "profession" = some "Partner" ∨
      dictGet (extract_using_regex text) "profession" = some "Not Found")
    ∧ (dictGet (extract_using_regex text) "sponsor" = some "Not Found" ∨
      ∃ m : String, dictGet (extract_using_regex text) "sponsor" = some m ∧
        m.data <:+: text.data ∧ "MACKSOFY".data <+: m.data ∧
        "SERVICES CO.".data <:+ m.data) := by
  constructor
  · rw [dictGet_extract_profession]
    cases h : strContains text "PARTNER" || strContains text "Partner" with
    | true =>
      left
      simp only [h, if_true]
    | false =>
      right
      simp only [h, Bool.false_eq_true, if_false]
  · rw [dictGet_extract_sponsor]
    cases h : searchSponsor text.data with
    | none =>
      left
      simp only []
    | some m =>
      right
      obtain ⟨hi, hp, hs⟩ := searchSponsor_shape h
      exact ⟨String.mk m, rfl, hi, hp, hs⟩

end EmiratesID
